import Mathlib

/-!
Verification of the OpenOPC `Client` session manager (`old_client.py`).

This file gives a shallow embedding of the tag-group lifecycle and
read/write correlation engine of `Client`: transaction-id minting,
the asynchronous callback wait loop, item validation and addition
(`Client.iread.add_items`), client-handle allocation, chunking of tag
lists, data-source resolution, result assembly, group removal
(`Client.remove`), and the state effects of an anonymous read.

Modelling conventions:
- Python dicts whose values the proofs index by key are modelled as
  functions `K → Option V`; the per-sub-group handle dict (whose maximum
  key the allocator takes) is modelled as an association list in
  insertion order.
- `del d[k]` is modelled by `pydelF` (raising `KeyError` when absent),
  `d[k]` reads by `pyGetF`/`pyGetL`, and `l[i]` list indexing by
  `pyIndex` (raising `IndexError` when out of range), each in the
  `Except String` monad standing for Python exceptions.  An error
  outcome stands for the exception propagating out of the call; the
  partially-mutated session state on such a path is not tracked.
- COM times are in milliseconds as naturals; COM values are opaque
  integers (the `pywintypes.TimeType` stringification branch is not
  modelled, no claim touches it); callback timestamps are kept as the
  strings `str(...)` would produce.
- The sub-group key `'%s.%d' % (group, gid)` is modelled as the pair
  `(group, gid)` (the format is injective in the index), and the
  anonymous sub-group (Python `None`, server-assigned group name) as
  `none`.
- The leading dummy `0` element that the code inserts for COM 1-based
  arrays is dropped; the error lists returned by `Validate`/`AddItems`
  are indexed exactly as the code's loops index them.
-/

namespace OpenOPC

/-- Python `l[i]` on a list: the value, or an `IndexError`. -/
def pyIndex {α : Type} (l : List α) (i : Nat) : Except String α :=
  match l.get? i with
  | some x => Except.ok x
  | none => Except.error "IndexError: list index out of range"

/-- Python `d[k]` on a dict modelled as a function: the value, or a `KeyError`. -/
def pyGetF {V : Type} (m : String → Option V) (k : String) : Except String V :=
  match m k with
  | some v => Except.ok v
  | none => Except.error "KeyError"

/-- Lookup in a dict modelled as an association list (keys are unique). -/
def plookup {K V : Type} [DecidableEq K] : List (K × V) → K → Option V
  | [], _ => none
  | (k', v) :: rest, k => if k' = k then some v else plookup rest k

/-- Python `d[k]` on a dict modelled as an association list. -/
def pyGetL {K V : Type} [DecidableEq K] (m : List (K × V)) (k : K) : Except String V :=
  match plookup m k with
  | some v => Except.ok v
  | none => Except.error "KeyError"

/-- Pointwise update of a dict modelled as a function. -/
def fupd {K V : Type} [DecidableEq K] (m : K → V) (k : K) (v : V) : K → V :=
  fun x => if x = k then v else m x

/-- Python `del d[k]` on a dict modelled as a function: `KeyError` when absent. -/
def pydelF {K V : Type} [DecidableEq K] (m : K → Option V) (k : K) :
    Except String (K → Option V) :=
  match m k with
  | some _ => Except.ok (fupd m k none)
  | none => Except.error "KeyError"

/-- Sub-group key: `none` is the anonymous sub-group (Python `None`); a named
sub-group `'%s.%d' % (group, gid)` is the pair `(group, gid)`. -/
abbrev SubKey := Option (String × Nat)

/-- Session state of `Client` (`__init__`, lines 67-77): the group map and the
per-sub-group tag/valid-tag/handle dictionaries, the event-hook registry, the
set of groups live on the remote server, and the transaction-id counter. -/
structure OPCState where
  groups : String → Option Nat
  groupTags : SubKey → Option (List String)
  groupValidTags : SubKey → Option (List String)
  groupHandlesTag : SubKey → Option (List (Nat × String))
  groupServerHandles : SubKey → Option (List (String × Nat))
  groupHooks : SubKey → Option Bool
  remoteGroups : SubKey → Bool
  txId : Nat

/-- The freshly constructed session: every map empty, `_tx_id = 0`. -/
def emptyState : OPCState :=
  { groups := fun _ => none
    groupTags := fun _ => none
    groupValidTags := fun _ => none
    groupHandlesTag := fun _ => none
    groupServerHandles := fun _ => none
    groupHooks := fun _ => none
    remoteGroups := fun _ => false
    txId := 0 }

/-- Transaction-id allocation (lines 421-423): reset to `0` when the counter
has reached `0xFFFF`, then increment; the incremented value is the minted id. -/
def mintTxId (tx : Nat) : Nat :=
  (if tx ≥ 0xFFFF then 0 else tx) + 1

/-- Data source finally passed to `SyncRead`/`AsyncRefresh`. `SOURCE_CACHE`
and `SOURCE_DEVICE` are imported from `Common`; modelled from the spec as two
distinct markers (OPC cache versus device reads). -/
inductive DataSource where
  | cache
  | device
deriving DecidableEq

/-- Data-source resolution across `iread` (lines 284-297, 375, 399-400,
425-426): the initial source is cache exactly when the group exists and no
rebuild was requested; the rebuild branch of an existing group forces the
device source only under `source == 'hybrid'`; finally a non-hybrid caller
request overrides with its literal cache/device choice. -/
def readDataSource (groupExists rebuild : Bool) (source : String) : DataSource :=
  let ds0 := if groupExists && !rebuild then DataSource.cache else DataSource.device
  let ds1 := if groupExists && rebuild && (source = "hybrid") then DataSource.device else ds0
  if source ≠ "hybrid" then (if source = "cache" then DataSource.cache else DataSource.device)
  else ds1

/-- Health-tag dispatch in `read` (lines 517-522): counts tags whose first
character is `@` and tags whose first character is not, and raises a
`TypeError` when both kinds are present; otherwise reports which route
(health collaborator or `iread`) is taken. -/
def readTagCheck (tags : List String) : Except String Bool :=
  let numHealthTags := (tags.filter (fun t => t.take 1 = "@")).length
  let numOpcTags := (tags.filter (fun t => ¬(t.take 1 = "@"))).length
  if numHealthTags > 0 then
    if numOpcTags > 0 then
      Except.error "read(): system health and OPC tags cannot be included in the same group"
    else Except.ok true
  else Except.ok false

/-- Start of client-handle numbering in `add_items` (lines 203-209): `0` for a
missing or empty handle dict, `max(existing keys) + 1` otherwise. -/
def handleStart (m : List (Nat × String)) : Nat :=
  match m with
  | [] => 0
  | _ => (m.map Prod.fst).foldl max 0 + 1

/-- Validation loop of `add_items` (lines 211-220): for each tag, index the
`Validate` error list at the running position (an `IndexError` when the list
is too short, in particular when `Validate` raised and the list stayed empty);
a zero error code keeps the tag, assigns it the next client handle and records
the `(handle, tag)` pair; a non-zero code optionally captures an error string.
Returns `(valid_tags, client_handles, new handle-map pairs, error_msgs)`. -/
def validLoop (es : Int → String) (ie : Bool) (errs : List Int) :
    Nat → Nat → List String →
    Except String (List String × List Nat × List (Nat × String) × List (String × String))
  | _, _, [] => Except.ok ([], [], [], [])
  | i, n, t :: ts =>
    match pyIndex errs i with
    | Except.error e => Except.error e
    | Except.ok e =>
      if e = 0 then
        match validLoop es ie errs (i + 1) (n + 1) ts with
        | Except.error ex => Except.error ex
        | Except.ok (vt, ch, np, ms) => Except.ok (t :: vt, n :: ch, (n, t) :: np, ms)
      else
        match validLoop es ie errs (i + 1) n ts with
        | Except.error ex => Except.error ex
        | Except.ok (vt, ch, np, ms) =>
          Except.ok (vt, ch, np, if ie then (t, es e) :: ms else ms)

/-- `AddItems` result loop of `add_items` (lines 241-247): for each tag that
passed validation, index the per-item error list (`IndexError` when exhausted,
in particular when `AddItems` raised); a zero code keeps the tag together with
its server handle; a non-zero code optionally captures an error string.
Returns `(valid_tags, server_handles, (tag, server handle) pairs, error_msgs)`. -/
def addLoop (es : Int → String) (ie : Bool) (errs : List Int) (shs : List Nat) :
    Nat → List String →
    Except String (List String × List Nat × List (String × Nat) × List (String × String))
  | _, [] => Except.ok ([], [], [], [])
  | i, t :: ts =>
    match pyIndex errs i with
    | Except.error e => Except.error e
    | Except.ok e =>
      if e = 0 then
        match pyIndex shs i with
        | Except.error ex => Except.error ex
        | Except.ok sh =>
          match addLoop es ie errs shs (i + 1) ts with
          | Except.error ex => Except.error ex
          | Except.ok (vt, vsh, sp, ms) => Except.ok (t :: vt, sh :: vsh, (t, sh) :: sp, ms)
      else
        match addLoop es ie errs shs (i + 1) ts with
        | Except.error ex => Except.error ex
        | Except.ok (vt, vsh, sp, ms) =>
          Except.ok (vt, vsh, sp, if ie then (t, es e) :: ms else ms)

/-- Overwrite-or-append insertion preserving dict insertion order. -/
def pyset {K V : Type} [DecidableEq K] : List (K × V) → K → V → List (K × V)
  | [], k, v => [(k, v)]
  | (k', v') :: rest, k, v =>
    if k' = k then (k, v) :: rest else (k', v') :: pyset rest k v

/-- Record a batch of `(tag, server handle)` pairs in a sub-group's server
handle dict (line 245, executed per kept tag). -/
def pysetAll {K V : Type} [DecidableEq K] (m : List (K × V)) : List (K × V) → List (K × V)
  | [] => m
  | (k, v) :: rest => pysetAll (pyset m k v) rest

/-- `Client.iread.add_items` (lines 186-252).  `vr` is the outcome of
`opc_items.Validate` (`none` when the call raised, in which case the swallowed
exception leaves the error list empty), `ar` the outcome of
`opc_items.AddItems` (`none` when that call raised, leaving both result lists
empty), `ie` the `include_error` flag and `es` the remote `GetErrorString`
primitive (the `.strip` of the result is folded into `es`).  The
create-empty-dict-when-missing steps (lines 203-204, 238-239) are folded into
the unconditional final dict updates, which produce the same dict.  Returns
the updated session state, the usable tag subset and its server handles. -/
def addItems (st : OPCState) (sub : SubKey) (tags : List String)
    (vr : Option (List Int)) (ar : Option (List Nat × List Int))
    (ie : Bool) (es : Int → String) :
    Except String (OPCState × List String × List Nat) :=
  match validLoop es ie (vr.getD []) 0 (handleStart ((st.groupHandlesTag sub).getD [])) tags with
  | Except.error e => Except.error e
  | Except.ok (validTags, _clientHandles, newPairs, _msgs1) =>
    match addLoop es ie (ar.getD ([], [])).2 (ar.getD ([], [])).1 0 validTags with
    | Except.error e => Except.error e
    | Except.ok (validTags2, serverHandles2, serverPairs, _msgs2) =>
      Except.ok (
        { st with
          groupHandlesTag := fupd st.groupHandlesTag sub
            (some ((st.groupHandlesTag sub).getD [] ++ newPairs))
          groupServerHandles := fupd st.groupServerHandles sub
            (some (pysetAll ((st.groupServerHandles sub).getD []) serverPairs)) },
        validTags2, serverHandles2)

/-- One message delivered on the callback queue: the transaction id, the
client handles, and the parallel value/quality/timestamp arrays. -/
structure CallbackMsg where
  txid : Nat
  handles : List Nat
  values : List Int
  qualities : List Int
  timestamps : List String
deriving DecidableEq

/-- One iteration of the callback wait loop observes the clock and either an
empty queue (`PumpWaitingMessages` is called) or the queue's front message. -/
abbrev PumpStep := Nat × Option CallbackMsg

/-- Callback wait loop of the async read (lines 436-447): starting after the
refresh was issued at time `start`, each iteration first raises
`Callback: Timeout waiting for data` when more than `timeout` ms have elapsed;
otherwise it pumps (queue empty) or consumes the next queue message, exiting
exactly when the consumed message carries the minted transaction id `target`.
`none` means the supplied event trace ended with the loop still spinning.
(The loop is entered because the local `tx_id` starts at `0` and every minted
id is positive.) -/
def waitCallback (target timeout start : Nat) : List PumpStep → Option (Except String CallbackMsg)
  | [] => none
  | (now, om) :: rest =>
    if now - start > timeout then
      some (Except.error "Callback: Timeout waiting for data")
    else
      match om with
      | none => waitCallback target timeout start rest
      | some msg =>
        if msg.txid = target then some (Except.ok msg) else waitCallback target timeout start rest

/-- Handle-resolution loop after a matched callback (lines 449-453): each
delivered client handle is resolved through the sub-group's handle dict
(a `KeyError` when unknown) and the parallel arrays are indexed at the same
position, populating the tag → value/quality/timestamp maps. -/
def buildTagMapsAux (hmap : List (Nat × String)) (values qualities : List Int)
    (times : List String) :
    Nat → List Nat → (String → Option Int) → (String → Option Int) → (String → Option String) →
    Except String ((String → Option Int) × (String → Option Int) × (String → Option String))
  | _, [], tv, tq, tt => Except.ok (tv, tq, tt)
  | i, h :: hs, tv, tq, tt =>
    match pyGetL hmap h with
    | Except.error e => Except.error e
    | Except.ok tag =>
      match pyIndex values i, pyIndex qualities i, pyIndex times i with
      | Except.ok v, Except.ok q, Except.ok t =>
        buildTagMapsAux hmap values qualities times (i + 1) hs
          (fupd tv tag (some v)) (fupd tq tag (some q)) (fupd tt tag (some t))
      | Except.error e, _, _ => Except.error e
      | _, Except.error e, _ => Except.error e
      | _, _, Except.error e => Except.error e

/-- Resolve a whole callback message against a handle dict. -/
def buildTagMaps (hmap : List (Nat × String)) (msg : CallbackMsg) :
    Except String ((String → Option Int) × (String → Option Int) × (String → Option String)) :=
  buildTagMapsAux hmap msg.values msg.qualities msg.timestamps 0 msg.handles
    (fun _ => none) (fun _ => none) (fun _ => none)

/-- Record choice for a tag present in the response map (lines 457-466).
`qs` is `quality_str` from `Common` (modelled from the spec: quality codes are
mapped to a fixed string enumeration by a lookup table); `validNonempty` is
`len(valid_tags) > 0`.  The observed value/quality/timestamp is kept when
`(not sync and len(valid_tags) > 0) or (sync and tag_error[tag] == 0)`
(short-circuit evaluation: the `tag_error` dict is only read in sync mode),
and `(None, Error, None)` otherwise. -/
def assembleValue (sync validNonempty : Bool) (qs : Int → String)
    (tagQuality : String → Option Int) (tagTime : String → Option String)
    (tagError : String → Option Int) (v : Int) (tag : String) :
    Except String (Option Int × String × Option String) :=
  if ¬sync ∧ validNonempty then
    match pyGetF tagQuality tag, pyGetF tagTime tag with
    | Except.ok q, Except.ok t => Except.ok (some v, qs q, some t)
    | Except.error e, _ => Except.error e
    | _, Except.error e => Except.error e
  else if sync then
    match pyGetF tagError tag with
    | Except.error e => Except.error e
    | Except.ok e =>
      if e = 0 then
        match pyGetF tagQuality tag, pyGetF tagTime tag with
        | Except.ok q, Except.ok t => Except.ok (some v, qs q, some t)
        | Except.error ex, _ => Except.error ex
        | _, Except.error ex => Except.error ex
      else Except.ok (none, "Error", none)
  else Except.ok (none, "Error", none)

/-- Per-tag record assembly, continued (lines 455-474): a tag present in the
response map gets the value/quality/timestamp record chosen by
`assembleValue`, followed (under `include_error`) by the error-string lookup
of line 468; a tag absent from the response map reaches line 473,
`tag in include_error` — a membership test on a bool — which raises a
`TypeError`. -/
def assembleOne (sync ie validNonempty : Bool) (qs es : Int → String)
    (tagValue tagQuality : String → Option Int) (tagTime : String → Option String)
    (tagError : String → Option Int) (tag : String) :
    Except String (Option Int × String × Option String) :=
  match tagValue tag with
  | some v =>
    match assembleValue sync validNonempty qs tagQuality tagTime tagError v tag with
    | Except.error e => Except.error e
    | Except.ok rec =>
      if ie then
        match pyGetF tagError tag with
        | Except.error e => Except.error e
        | Except.ok e =>
          let _ := es e
          Except.ok rec
      else Except.ok rec
  | none =>
    Except.error "TypeError: argument of type bool is not iterable"

/-- Record assembly over the originally requested tags, in request order
(lines 455-485, list shape, `include_error=False`): one `(tag, value,
quality, timestamp)` record per tag; the first per-tag exception aborts the
whole read. -/
def assembleRecords (sync ie validNonempty : Bool) (qs es : Int → String)
    (tagValue tagQuality : String → Option Int) (tagTime : String → Option String)
    (tagError : String → Option Int) :
    List String → Except String (List (String × Option Int × String × Option String))
  | [] => Except.ok []
  | t :: ts =>
    match assembleOne sync ie validNonempty qs es tagValue tagQuality tagTime tagError t with
    | Except.error e => Except.error e
    | Except.ok r =>
      match assembleRecords sync ie validNonempty qs es tagValue tagQuality tagTime tagError ts with
      | Except.error e => Except.error e
      | Except.ok rest => Except.ok ((t, r) :: rest)

/-- Chunking of a tag list for sizes `>= 1` (lines 291-292, 573-575):
`[tags[i:i+size] for i in range(0, len(tags), size)]`. -/
def chunkBy {α : Type} (s : Nat) : List α → List (List α)
  | [] => []
  | t :: ts => (t :: ts).take s :: chunkBy s (ts.drop (s - 1))
termination_by l => l.length
decreasing_by
  simp only [List.length_cons, List.length_drop]
  omega

/-- Tag-list chunking as `iread`/`iwrite` perform it (lines 288-294, 571-579):
a falsy `size` (`None` or `0`) keeps the whole list as a single group. -/
def chunkTags {α : Type} (size : Nat) (tags : List α) : List (List α) :=
  if size = 0 then [tags] else chunkBy size tags

/-- Teardown of one sub-group inside `Client.remove` (lines 748-762): close a
live event hook (the hook object is closed; its registry entry remains),
remove the group from the remote server, then `del` the sub-group's entry
from the tag, valid-tag, handle→tag and tag→server-handle dicts (a `KeyError`
propagates when an entry is absent). -/
def removeSubGroup (st : OPCState) (k : SubKey) : Except String OPCState :=
  let hooks' :=
    if (st.groupHooks k).isSome then fupd st.groupHooks k (some false) else st.groupHooks
  let remote' := fupd st.remoteGroups k false
  match pydelF st.groupTags k with
  | Except.error e => Except.error e
  | Except.ok gt =>
    match pydelF st.groupValidTags k with
    | Except.error e => Except.error e
    | Except.ok gv =>
      match pydelF st.groupHandlesTag k with
      | Except.error e => Except.error e
      | Except.ok gh =>
        match pydelF st.groupServerHandles k with
        | Except.error e => Except.error e
        | Except.ok gs =>
          Except.ok { st with
            groupTags := gt, groupValidTags := gv, groupHandlesTag := gh,
            groupServerHandles := gs, groupHooks := hooks', remoteGroups := remote' }

/-- Loop of `Client.remove` over the recorded sub-group indices. -/
def removeSubGroupsLoop (name : String) : OPCState → List Nat → Except String OPCState
  | st, [] => Except.ok st
  | st, i :: is =>
    match removeSubGroup st (some (name, i)) with
    | Except.error e => Except.error e
    | Except.ok st' => removeSubGroupsLoop name st' is

/-- `Client.remove` for one group name (lines 743-763): a name absent from
the group map is a no-op; otherwise every recorded sub-group
`0 .. count - 1` is torn down and the group's top-level entry is dropped. -/
def removeGroup (st : OPCState) (name : String) : Except String OPCState :=
  match st.groups name with
  | none => Except.ok st
  | some count =>
    match removeSubGroupsLoop name st (List.range count) with
    | Except.error e => Except.error e
    | Except.ok st' =>
      Except.ok { st' with groups := fun g => if g = name then none else st'.groups g }

/-- End-of-read cleanup for an anonymous group (lines 487-498, async path):
the event hook is closed (its registry entry remains, now marked closed) and
the remote group is removed; no session dict entry is deleted. -/
def anonCleanup (st : OPCState) : OPCState :=
  { st with
    groupHooks :=
      if (st.groupHooks none).isSome then fupd st.groupHooks none (some false)
      else st.groupHooks
    remoteGroups := fupd st.remoteGroups none false }

/-- State effects and result of one anonymous asynchronous read
(`iread` with `group=None`, `sync=False`, `include_error=False`, no `size`):
the remote group is added and a fresh event hook registered (lines 309-347),
`add_items` runs for the whole tag list (line 351) and the tag/valid-tag
caches are set (lines 353-354); with a non-empty valid set a transaction id
is minted, the refresh issued, and the callback wait (`waitCallback`, whose
outcome is determined by the event trace `steps`) must match it before the
delivered handles are resolved and the records assembled; finally
`anonCleanup` runs.  An `Except.error` outcome is the exception propagating
to the caller. -/
def anonReadState (st : OPCState) (tags : List String)
    (vr : Option (List Int)) (ar : Option (List Nat × List Int))
    (es qs : Int → String) (timeout start : Nat) (steps : List PumpStep) :
    Except String (OPCState × List (String × Option Int × String × Option String)) :=
  match addItems
      { st with
        remoteGroups := fupd st.remoteGroups none true
        groupHooks := fupd st.groupHooks none (some true) }
      none tags vr ar false es with
  | Except.error e => Except.error e
  | Except.ok (st3, validTags, _serverHandles) =>
    if validTags.isEmpty then
      match assembleRecords false false false qs es (fun _ => none) (fun _ => none)
          (fun _ => none) (fun _ => none) tags with
      | Except.error e => Except.error e
      | Except.ok recs =>
        Except.ok (anonCleanup
          { st3 with
            groupTags := fupd st3.groupTags none (some tags)
            groupValidTags := fupd st3.groupValidTags none (some validTags) }, recs)
    else
      match waitCallback (mintTxId st3.txId) timeout start steps with
      | none => Except.error "model: event trace exhausted before match or timeout"
      | some (Except.error e) => Except.error e
      | some (Except.ok msg) =>
        match buildTagMaps ((st3.groupHandlesTag none).getD []) msg with
        | Except.error e => Except.error e
        | Except.ok (tv, tq, tt) =>
          match assembleRecords false false true qs es tv tq tt (fun _ => none) tags with
          | Except.error e => Except.error e
          | Except.ok recs =>
            Except.ok (anonCleanup
              { st3 with
                groupTags := fupd st3.groupTags none (some tags)
                groupValidTags := fupd st3.groupValidTags none (some validTags)
                txId := mintTxId st3.txId }, recs)

/-- State projection of an `Except` outcome, with a default for the error
case (used to phrase closed evaluations of state-returning operations). -/
def stateOfE (r : Except String OPCState) (d : OPCState) : OPCState :=
  match r with
  | Except.ok s => s
  | Except.error _ => d

/-- State projection of a read outcome, with a default for the error case. -/
def stateOfR (r : Except String (OPCState × List (String × Option Int × String × Option String)))
    (d : OPCState) : OPCState :=
  match r with
  | Except.ok (s, _) => s
  | Except.error _ => d

/-- Record projection of a read outcome. -/
def recsOfR (r : Except String (OPCState × List (String × Option Int × String × Option String))) :
    List (String × Option Int × String × Option String) :=
  match r with
  | Except.ok (_, rs) => rs
  | Except.error _ => []

/-- Session state after a read of tags `["T1", "T2", "T3"]` under group `"G"`
with `size=2` (the spec's removal scenario): two recorded sub-groups
`G.0 = [T1, T2]` and `G.1 = [T3]`, an event hook on `G.0`, both sub-groups
live on the remote server. -/
def removeDemoState : OPCState :=
  { groups := fun g => if g = "G" then some 2 else none
    groupTags := fun k =>
      if k = some ("G", 0) then some ["T1", "T2"]
      else if k = some ("G", 1) then some ["T3"] else none
    groupValidTags := fun k =>
      if k = some ("G", 0) then some ["T1", "T2"]
      else if k = some ("G", 1) then some ["T3"] else none
    groupHandlesTag := fun k =>
      if k = some ("G", 0) then some [(0, "T1"), (1, "T2")]
      else if k = some ("G", 1) then some [(0, "T3")] else none
    groupServerHandles := fun k =>
      if k = some ("G", 0) then some [("T1", 11), ("T2", 12)]
      else if k = some ("G", 1) then some [("T3", 13)] else none
    groupHooks := fun k => if k = some ("G", 0) then some true else none
    remoteGroups := fun k => k = some ("G", 0) ∨ k = some ("G", 1)
    txId := 3 }

end OpenOPC

namespace OpenOPC

/-- C2: the claim states that when the remote `Validate` call itself raises,
`add_items` does not abort but degrades to treating every requested tag as
invalid, returning an empty valid set.  On the code this is false: the
swallowed exception leaves `errors = []` (line 190, 194-197), and the very
first loop iteration then indexes `errors[0]` (line 212), raising an
`IndexError` that propagates out of the read (only `pythoncom.com_error` is
caught at line 500).  This theorem evaluates the embedded `add_items` on any
non-empty tag list with a failed validation call: the call aborts with the
`IndexError` instead of returning an empty valid-tag set. -/
theorem c2_validation_failure_indexerror (st : OPCState) (sub : SubKey)
    (t : String) (ts : List String) (ar : Option (List Nat × List Int))
    (ie : Bool) (es : Int → String) :
    addItems st sub (t :: ts) none ar ie es =
      Except.error "IndexError: list index out of range" := rfl

/-- C3: the claim states that a requested tag absent from the assembled
response map yields the record `(None, "Error", None)` and never an
exception.  On the code this is false: the absent-tag branch evaluates
`tag in include_error` (line 473) where `include_error` is a bool, raising
`TypeError: argument of type 'bool' is not iterable`.  This theorem
evaluates the embedded assembly loop on a sync read whose response map holds
`T1` but not `T2` (e.g. because `T2` failed validation): the read aborts
with the `TypeError` instead of producing `(None, "Error", None)`. -/
theorem c3_missing_tag_typeerror :
    assembleRecords true false true (fun _ => "Good") (fun _ => "")
      (fun t => if t = "T1" then some 5 else none)
      (fun t => if t = "T1" then some 0 else none)
      (fun t => if t = "T1" then some "ts" else none)
      (fun t => if t = "T1" then some 0 else none)
      ["T1", "T2"] = Except.error "TypeError: argument of type bool is not iterable" := rfl

/-- C4 counterexample: the claim states the transaction counter stays in
`[0, 0xFFFF)` and that an allocation at `0xFFFF` produces `0`.  Both parts
fail on lines 421-423: allocation at `0xFFFF` resets to `0` and then
increments, producing `1`; and allocation at `0xFFFE` produces `0xFFFF`
itself, which is outside `[0, 0xFFFF)`. -/
theorem c4_txid_wrap_counterexample :
    mintTxId 0xFFFF = 1 ∧ mintTxId 0xFFFF ≠ 0 ∧ ¬ mintTxId 0xFFFE < 0xFFFF := by
  refine ⟨rfl, ?_, ?_⟩ <;> decide

/-- C4 amended: every allocation yields a value in `[1, 0xFFFF]` — never
negative (the type is natural) and never above `0xFFFF` — and an allocation
performed when the counter has reached `0xFFFF` wraps through `0` and
produces `1`. -/
theorem c4_txid_range_amended (tx : Nat) :
    1 ≤ mintTxId tx ∧ mintTxId tx ≤ 0xFFFF ∧ mintTxId 0xFFFF = 1 := by
  refine ⟨?_, ?_, rfl⟩ <;> unfold mintTxId <;> split <;> omega

/-- C5 counterexample: the claim states a rebuild read of an existing group
with added tags uses the device source regardless of the requested source
mode, in particular for `source='cache'`.  On the code this is false: the
rebuild branch forces the device source only under `source == 'hybrid'`
(line 375), and a non-hybrid source is afterwards honoured literally
(lines 399-400, 425-426), so `source='cache'` reads from the cache. -/
theorem c5_cache_source_counterexample :
    readDataSource true true "cache" = DataSource.cache ∧
    DataSource.cache ≠ DataSource.device := by
  exact ⟨rfl, by decide⟩

/-- C5 amended: a rebuild read uses the device source whenever the caller's
source mode is `'hybrid'` (whether or not the group previously existed);
an explicit `source='cache'` request is honoured and reads from the cache. -/
theorem c5_rebuild_hybrid_device :
    readDataSource true true "hybrid" = DataSource.device ∧
    readDataSource false true "hybrid" = DataSource.device ∧
    readDataSource true true "cache" = DataSource.cache ∧
    readDataSource false true "cache" = DataSource.cache :=
  ⟨rfl, rfl, rfl, rfl⟩

/-- C10: `read` raises the health/OPC mixing `TypeError` (lines 517-522,
before any remote call: the check precedes both `_read_health` and `iread`)
exactly when the tag list contains at least one health tag (first character
`@`) and at least one regular tag; in particular a list of only health tags
or only regular tags never takes the error branch. -/
theorem c10_health_tag_mixing (tags : List String) :
    readTagCheck tags =
        Except.error "read(): system health and OPC tags cannot be included in the same group"
      ↔ (∃ t ∈ tags, t.take 1 = "@") ∧ (∃ t ∈ tags, t.take 1 ≠ "@") := by
  unfold readTagCheck
  constructor
  · intro h
    by_cases h1 : 0 < (tags.filter (fun t => t.take 1 = "@")).length
    · by_cases h2 : 0 < (tags.filter (fun t => ¬(t.take 1 = "@"))).length
      · obtain ⟨a, ha⟩ := List.exists_mem_of_length_pos h1
        obtain ⟨b, hb⟩ := List.exists_mem_of_length_pos h2
        have ha' := List.mem_filter.mp ha
        have hb' := List.mem_filter.mp hb
        refine ⟨⟨a, ha'.1, by simpa using ha'.2⟩, ⟨b, hb'.1, by simpa using hb'.2⟩⟩
      · rw [if_pos h1, if_neg h2] at h
        exact absurd h (by simp)
    · rw [if_neg h1] at h
      exact absurd h (by simp)
  · rintro ⟨⟨a, ha, hpa⟩, ⟨b, hb, hpb⟩⟩
    have h1 : 0 < (tags.filter (fun t => t.take 1 = "@")).length :=
      List.length_pos_of_mem (List.mem_filter.mpr ⟨ha, by simpa using hpa⟩)
    have h2 : 0 < (tags.filter (fun t => ¬(t.take 1 = "@"))).length :=
      List.length_pos_of_mem (List.mem_filter.mpr ⟨hb, by simpa using hpb⟩)
    rw [if_pos h1, if_pos h2]

/-- Witness for C10 at a concrete mixed list: `["@MEM", "T1"]` raises the
mixing error. -/
theorem c10_health_tag_mixing_witness :
    readTagCheck ["@MEM", "T1"] =
      Except.error "read(): system health and OPC tags cannot be included in the same group" :=
  (c10_health_tag_mixing ["@MEM", "T1"]).mpr
    ⟨⟨"@MEM", by simp, rfl⟩, ⟨"T1", by simp, by decide⟩⟩

end OpenOPC

namespace OpenOPC

/-- Characterisation of the callback wait loop: a successful exit consumes a
message with exactly the target transaction id, after a prefix of iterations
that all stayed within the timeout and whose consumed messages all carried a
different transaction id; an error exit is the timeout error, raised at the
first iteration observed past the timeout. -/
theorem waitCallback_spec (target timeout start : Nat) :
    ∀ (steps : List PumpStep) (res : Except String CallbackMsg),
      waitCallback target timeout start steps = some res →
      (∀ msg, res = Except.ok msg →
        msg.txid = target ∧
        ∃ pre now post, steps = pre ++ (now, some msg) :: post ∧
          now - start ≤ timeout ∧
          ∀ p ∈ pre, p.1 - start ≤ timeout ∧ ∀ m, p.2 = some m → m.txid ≠ target) ∧
      (∀ e, res = Except.error e →
        e = "Callback: Timeout waiting for data" ∧
        ∃ pre now om post, steps = pre ++ (now, om) :: post ∧
          now - start > timeout ∧
          ∀ p ∈ pre, p.1 - start ≤ timeout ∧ ∀ m, p.2 = some m → m.txid ≠ target) := by
  intro steps
  induction steps with
  | nil => intro res h; exact absurd h (by simp [waitCallback])
  | cons s rest ih =>
    obtain ⟨now, om⟩ := s
    intro res h
    simp only [waitCallback] at h
    by_cases ht : now - start > timeout
    · rw [if_pos ht] at h
      have hres : res = Except.error "Callback: Timeout waiting for data" :=
        (Option.some.inj h).symm
      subst hres
      constructor
      · intro msg hmsg; exact absurd hmsg (by simp)
      · intro e he
        refine ⟨(Except.error.inj he.symm), [], now, om, rest, rfl, ht, ?_⟩
        intro p hp; exact absurd hp (List.not_mem_nil p)
    · rw [if_neg ht] at h
      have hle : now - start ≤ timeout := Nat.le_of_not_lt ht
      cases om with
      | none =>
        have h' := ih res h
        constructor
        · intro msg hmsg
          obtain ⟨htx, pre, now', post, heq, hnow, hpre⟩ := h'.1 msg hmsg
          refine ⟨htx, (now, none) :: pre, now', post, by simp [heq], hnow, ?_⟩
          intro p hp
          rcases List.mem_cons.mp hp with rfl | hp'
          · exact ⟨hle, by intro m hm; exact absurd hm (by simp)⟩
          · exact hpre p hp'
        · intro e he
          obtain ⟨hmsg, pre, now', om', post, heq, hnow, hpre⟩ := h'.2 e he
          refine ⟨hmsg, (now, none) :: pre, now', om', post, by simp [heq], hnow, ?_⟩
          intro p hp
          rcases List.mem_cons.mp hp with rfl | hp'
          · exact ⟨hle, by intro m hm; exact absurd hm (by simp)⟩
          · exact hpre p hp'
      | some msg0 =>
        replace h : (if msg0.txid = target then some (Except.ok msg0)
            else waitCallback target timeout start rest) = some res := h
        by_cases hm0 : msg0.txid = target
        · rw [if_pos hm0] at h
          have hres : res = Except.ok msg0 := (Option.some.inj h).symm
          subst hres
          constructor
          · intro msg hmsg
            have : msg0 = msg := Except.ok.inj hmsg
            subst this
            refine ⟨hm0, [], now, rest, rfl, hle, ?_⟩
            intro p hp; exact absurd hp (List.not_mem_nil p)
          · intro e he; exact absurd he (by simp)
        · rw [if_neg hm0] at h
          have h' := ih res h
          constructor
          · intro msg hmsg
            obtain ⟨htx, pre, now', post, heq, hnow, hpre⟩ := h'.1 msg hmsg
            refine ⟨htx, (now, some msg0) :: pre, now', post, by simp [heq], hnow, ?_⟩
            intro p hp
            rcases List.mem_cons.mp hp with rfl | hp'
            · refine ⟨hle, ?_⟩
              intro m hm
              have : msg0 = m := Option.some.inj hm
              subst this; exact hm0
            · exact hpre p hp'
          · intro e he
            obtain ⟨hmsg, pre, now', om', post, heq, hnow, hpre⟩ := h'.2 e he
            refine ⟨hmsg, (now, some msg0) :: pre, now', om', post, by simp [heq], hnow, ?_⟩
            intro p hp
            rcases List.mem_cons.mp hp with rfl | hp'
            · refine ⟨hle, ?_⟩
              intro m hm
              have : msg0 = m := Option.some.inj hm
              subst this; exact hm0
            · exact hpre p hp'

/-- C1: in an asynchronous read the wait after the refresh (lines 436-447),
run against the transaction id minted for this request, either consumes a
callback message carrying exactly that id — every message consumed before the
match carried a different id and is discarded, contributing nothing to the
returned results (only the matching message is returned) — or raises the
fatal `Callback: Timeout waiting for data` at the first iteration observed
more than `timeout` ms after the refresh was issued at `start`, whichever
comes first (all earlier iterations were within the timeout). -/
theorem c1_async_callback_wait (prev timeout start : Nat) (steps : List PumpStep)
    (res : Except String CallbackMsg)
    (h : waitCallback (mintTxId prev) timeout start steps = some res) :
    (∀ msg, res = Except.ok msg →
      msg.txid = mintTxId prev ∧
      ∃ pre now post, steps = pre ++ (now, some msg) :: post ∧
        now - start ≤ timeout ∧
        ∀ p ∈ pre, p.1 - start ≤ timeout ∧ ∀ m, p.2 = some m → m.txid ≠ mintTxId prev) ∧
    (∀ e, res = Except.error e →
      e = "Callback: Timeout waiting for data" ∧
      ∃ pre now om post, steps = pre ++ (now, om) :: post ∧
        now - start > timeout ∧
        ∀ p ∈ pre, p.1 - start ≤ timeout ∧ ∀ m, p.2 = some m → m.txid ≠ mintTxId prev) :=
  waitCallback_spec (mintTxId prev) timeout start steps res h

/-- Witness for C1: a concrete trace with one empty-queue poll, one stale
message (transaction id 2) and then the matching message; the match carries
exactly the minted id. -/
theorem c1_async_callback_wait_witness :
    (⟨1, [0], [42], [0], ["t"]⟩ : CallbackMsg).txid = mintTxId 0 :=
  ((c1_async_callback_wait 0 100 0
      [(10, none), (20, some ⟨2, [], [], [], []⟩), (30, some ⟨1, [0], [42], [0], ["t"]⟩)]
      (Except.ok ⟨1, [0], [42], [0], ["t"]⟩) rfl).1
    ⟨1, [0], [42], [0], ["t"]⟩ rfl).1

end OpenOPC

namespace OpenOPC

/-- The seed of a left max-fold bounds it from below, and so does every list
element. -/
theorem le_foldl_max (l : List Nat) (b : Nat) :
    b ≤ l.foldl max b ∧ ∀ a ∈ l, a ≤ l.foldl max b := by
  induction l generalizing b with
  | nil => exact ⟨Nat.le_refl b, by intro a ha; exact absurd ha (List.not_mem_nil a)⟩
  | cons x xs ih =>
    have h := ih (max b x)
    refine ⟨Nat.le_trans (Nat.le_max_left b x) h.1, ?_⟩
    intro a ha
    rcases List.mem_cons.mp ha with rfl | ha'
    · exact Nat.le_trans (Nat.le_max_right b a) h.1
    · exact h.2 a ha'

/-- Every key already present in a handle dict is strictly below the
allocation start `handleStart`. -/
theorem lt_handleStart (m : List (Nat × String)) (p : Nat × String) (hp : p ∈ m) :
    p.1 < handleStart m := by
  match m, hp with
  | q :: rest, hp =>
    show p.1 < ((q :: rest).map Prod.fst).foldl max 0 + 1
    have hmem : p.1 ∈ (q :: rest).map Prod.fst := List.mem_map_of_mem Prod.fst hp
    have h2 := (le_foldl_max ((q :: rest).map Prod.fst) 0).2 p.1 hmem
    omega

/-- In a successful validation loop the assigned client handles are exactly
the consecutive integers starting at the loop's counter `n`, one per kept
tag, and in particular each is at least `n`. -/
theorem validLoop_handles (es : Int → String) (ie : Bool) (errs : List Int) :
    ∀ (tags : List String) (i n : Nat) (vt : List String) (ch : List Nat)
      (np : List (Nat × String)) (ms : List (String × String)),
      validLoop es ie errs i n tags = Except.ok (vt, ch, np, ms) →
      ch = List.range' n vt.length ∧ ∀ x ∈ ch, n ≤ x := by
  intro tags
  induction tags with
  | nil =>
    intro i n vt ch np ms h
    simp only [validLoop, Except.ok.injEq, Prod.mk.injEq] at h
    obtain ⟨rfl, rfl, rfl, rfl⟩ := h
    exact ⟨rfl, by intro x hx; exact absurd hx (List.not_mem_nil x)⟩
  | cons t ts ih =>
    intro i n vt ch np ms h
    cases hpi : pyIndex errs i with
    | error e =>
      simp only [validLoop, hpi] at h
      exact absurd h (by simp)
    | ok e =>
      simp only [validLoop, hpi] at h
      by_cases he : e = 0
      · rw [if_pos he] at h
        cases hrec : validLoop es ie errs (i + 1) (n + 1) ts with
        | error ex =>
          simp only [hrec] at h
          exact absurd h (by simp)
        | ok r =>
          obtain ⟨vt', ch', np', ms'⟩ := r
          simp only [hrec, Except.ok.injEq, Prod.mk.injEq] at h
          obtain ⟨hvt, hch, hnp, hms⟩ := h
          subst hvt; subst hch
          have hih := ih (i + 1) (n + 1) vt' ch' np' ms' hrec
          constructor
          · simp only [List.length_cons]
            rw [List.range'_succ n vt'.length 1, hih.1]
          · intro x hx
            rcases List.mem_cons.mp hx with rfl | hx'
            · exact Nat.le_refl x
            · exact Nat.le_of_succ_le (hih.2 x hx')
      · rw [if_neg he] at h
        cases hrec : validLoop es ie errs (i + 1) n ts with
        | error ex =>
          simp only [hrec] at h
          exact absurd h (by simp)
        | ok r =>
          obtain ⟨vt', ch', np', ms'⟩ := r
          simp only [hrec, Except.ok.injEq, Prod.mk.injEq] at h
          obtain ⟨hvt, hch, hnp, hms⟩ := h
          subst hvt; subst hch
          exact ih (i + 1) n vt' ch' np' ms' hrec

/-- C6: client-handle allocation in `add_items` (lines 203-216) assigns
consecutive integers continuing from `handleStart` — `max(existing) + 1`, or
`0` when the sub-group's handle dict is empty or missing — one per tag that
passed validation; consequently no assigned handle equals a handle already
mapped to any tag in the same sub-group's handle dict (entries are never
removed while an item is live, so every live handle is among the keys). -/
theorem c6_handle_allocation (es : Int → String) (ie : Bool) (errors : List Int)
    (m : List (Nat × String)) (tags validTags : List String) (ch : List Nat)
    (np : List (Nat × String)) (ms : List (String × String))
    (h : validLoop es ie errors 0 (handleStart m) tags = Except.ok (validTags, ch, np, ms)) :
    ch = List.range' (handleStart m) validTags.length ∧
    ∀ x ∈ ch, ∀ p ∈ m, p.1 ≠ x := by
  have h1 := validLoop_handles es ie errors tags 0 (handleStart m) validTags ch np ms h
  refine ⟨h1.1, ?_⟩
  intro x hx p hp
  exact Nat.ne_of_lt (Nat.lt_of_lt_of_le (lt_handleStart m p hp) (h1.2 x hx))

/-- Witness for C6: with existing handles `{0 ↦ A, 1 ↦ B}` the next valid tag
gets handle `2 = max + 1`, which collides with no existing key. -/
theorem c6_handle_allocation_witness :
    [(2 : Nat)] = List.range' 2 1 ∧ (1 : Nat) ≠ 2 := by
  have h := c6_handle_allocation (fun _ => "") false [0] [(0, "A"), (1, "B")]
    ["T1"] ["T1"] [2] [(2, "T1")] [] rfl
  exact ⟨h.1, h.2 2 (by simp) (1, "B") (by simp)⟩

end OpenOPC

namespace OpenOPC

/-- Concatenating the chunks reproduces the original list (positive size). -/
theorem chunkBy_flatten {α : Type} (s' : Nat) :
    ∀ (n : Nat) (l : List α), l.length ≤ n → (chunkBy (s' + 1) l).flatten = l := by
  intro n
  induction n with
  | zero =>
    intro l hl
    have : l = [] := List.length_eq_zero.mp (Nat.le_antisymm hl (Nat.zero_le _))
    subst this
    simp [chunkBy]
  | succ n ih =>
    intro l hl
    match l with
    | [] => simp [chunkBy]
    | t :: ts =>
      have hdrop : (ts.drop (s' + 1 - 1)).length ≤ n := by
        simp only [List.length_drop]
        have := List.length_cons t ts ▸ hl
        omega
      rw [chunkBy]
      simp only [List.flatten_cons, ih (ts.drop (s' + 1 - 1)) hdrop]
      have : s' + 1 - 1 = s' := rfl
      rw [this]
      have : ts.drop s' = (t :: ts).drop (s' + 1) := (List.drop_succ_cons ..).symm
      rw [this, List.take_append_drop]

/-- Every chunk has at most `s` elements (positive size). -/
theorem chunkBy_sizes {α : Type} (s' : Nat) :
    ∀ (n : Nat) (l : List α), l.length ≤ n → ∀ c ∈ chunkBy (s' + 1) l, c.length ≤ s' + 1 := by
  intro n
  induction n with
  | zero =>
    intro l hl c hc
    have : l = [] := List.length_eq_zero.mp (Nat.le_antisymm hl (Nat.zero_le _))
    subst this
    simp [chunkBy] at hc
  | succ n ih =>
    intro l hl c hc
    match l with
    | [] => simp [chunkBy] at hc
    | t :: ts =>
      rw [chunkBy] at hc
      rcases List.mem_cons.mp hc with rfl | hc'
      · exact List.length_take_le ..
      · have hdrop : (ts.drop (s' + 1 - 1)).length ≤ n := by
          simp only [List.length_drop]
          have := List.length_cons t ts ▸ hl
          omega
        exact ih (ts.drop (s' + 1 - 1)) hdrop c hc'

/-- The number of chunks is the ceiling `(|l| + s) / (s + 1)` (positive
size `s + 1`). -/
theorem chunkBy_length {α : Type} (s' : Nat) :
    ∀ (n : Nat) (l : List α), l.length ≤ n →
      (chunkBy (s' + 1) l).length = (l.length + s') / (s' + 1) := by
  intro n
  induction n with
  | zero =>
    intro l hl
    have : l = [] := List.length_eq_zero.mp (Nat.le_antisymm hl (Nat.zero_le _))
    subst this
    simp [chunkBy]
    exact (Nat.div_eq_of_lt (by omega)).symm
  | succ n ih =>
    intro l hl
    match l with
    | [] =>
      simp [chunkBy]
      exact (Nat.div_eq_of_lt (by omega)).symm
    | t :: ts =>
      have hdrop : (ts.drop (s' + 1 - 1)).length ≤ n := by
        simp only [List.length_drop]
        have := List.length_cons t ts ▸ hl
        omega
      rw [chunkBy]
      simp only [List.length_cons, ih (ts.drop (s' + 1 - 1)) hdrop, List.length_drop]
      have hstep : (ts.length + 1 + s') / (s' + 1) = (ts.length + 1 + s' - (s' + 1)) / (s' + 1) + 1 :=
        Nat.div_eq_sub_div (Nat.succ_pos s') (by omega)
      have harg : ts.length + 1 + s' - (s' + 1) = ts.length := by omega
      rw [hstep, harg]
      by_cases hcase : s' ≤ ts.length
      · have : ts.length - (s' + 1 - 1) + s' = ts.length := by omega
        rw [this]
      · have h1 : ts.length - (s' + 1 - 1) + s' = s' := by omega
        have h2 : ts.length / (s' + 1) = 0 := Nat.div_eq_of_lt (by omega)
        have h3 : s' / (s' + 1) = 0 := Nat.div_eq_of_lt (by omega)
        rw [h1, h2, h3]

/-- C7: for every tag list `T` and positive chunk size `S`, the chunking of
`iread`/`iwrite` (lines 288-302, 571-581) produces exactly
`ceil(|T| / S) = (|T| + S - 1) / S` consecutive chunks of at most `S` tags
each, and concatenating the chunks (the order in which the per-chunk result
records are appended) reproduces exactly the order and cardinality of `T`. -/
theorem c7_chunk_reassembly {α : Type} (S : Nat) (hS : 0 < S) (T : List α) :
    (chunkTags S T).length = (T.length + S - 1) / S ∧
    (∀ c ∈ chunkTags S T, c.length ≤ S) ∧
    (chunkTags S T).flatten = T := by
  obtain ⟨s', rfl⟩ : ∃ s', S = s' + 1 := ⟨S - 1, by omega⟩
  unfold chunkTags
  rw [if_neg (Nat.succ_ne_zero s')]
  refine ⟨?_, ?_, ?_⟩
  · rw [chunkBy_length s' T.length T (Nat.le_refl _)]
    have harg : T.length + (s' + 1) - 1 = T.length + s' := by omega
    rw [harg]
  · exact chunkBy_sizes s' T.length T (Nat.le_refl _)
  · exact chunkBy_flatten s' T.length T (Nat.le_refl _)

/-- Witness for C7: tags `[T1, T2, T3]` with size 2 give the two chunks
`[T1, T2]`, `[T3]`, whose concatenation is the original list. -/
theorem c7_chunk_reassembly_witness :
    (chunkTags 2 ["T1", "T2", "T3"]).length = (3 + 2 - 1) / 2 ∧
    (chunkTags 2 ["T1", "T2", "T3"]).flatten = ["T1", "T2", "T3"] ∧
    (["T1", "T2"] : List String).length ≤ 2 := by
  have h := c7_chunk_reassembly 2 (by omega) ["T1", "T2", "T3"]
  refine ⟨h.1, h.2.2, h.2.1 ["T1", "T2"] ?_⟩
  simp [chunkTags, chunkBy]

end OpenOPC

namespace OpenOPC

/-- A `del` on a key that is present succeeds and clears exactly that key. -/
theorem pydelF_ok {K V : Type} [DecidableEq K] (m : K → Option V) (k : K) (v : V)
    (h : m k = some v) : pydelF m k = Except.ok (fupd m k none) := by
  unfold pydelF
  rw [h]

/-- Tearing down one sub-group whose four dict entries are present succeeds,
clears exactly those entries, marks the remote group removed, closes a live
hook, and changes nothing else. -/
theorem removeSubGroup_spec (st : OPCState) (k : SubKey)
    (h1 : (st.groupTags k).isSome) (h2 : (st.groupValidTags k).isSome)
    (h3 : (st.groupHandlesTag k).isSome) (h4 : (st.groupServerHandles k).isSome) :
    ∃ st', removeSubGroup st k = Except.ok st' ∧
      st'.groupTags k = none ∧ st'.groupValidTags k = none ∧
      st'.groupHandlesTag k = none ∧ st'.groupServerHandles k = none ∧
      st'.remoteGroups k = false ∧
      (∀ b, st.groupHooks k = some b → st'.groupHooks k = some false) ∧
      (st.groupHooks k = none → st'.groupHooks k = none) ∧
      (∀ k', k' ≠ k →
        st'.groupTags k' = st.groupTags k' ∧ st'.groupValidTags k' = st.groupValidTags k' ∧
        st'.groupHandlesTag k' = st.groupHandlesTag k' ∧
        st'.groupServerHandles k' = st.groupServerHandles k' ∧
        st'.groupHooks k' = st.groupHooks k' ∧ st'.remoteGroups k' = st.remoteGroups k') ∧
      st'.groups = st.groups ∧ st'.txId = st.txId := by
  obtain ⟨v1, hv1⟩ := Option.isSome_iff_exists.mp h1
  obtain ⟨v2, hv2⟩ := Option.isSome_iff_exists.mp h2
  obtain ⟨v3, hv3⟩ := Option.isSome_iff_exists.mp h3
  obtain ⟨v4, hv4⟩ := Option.isSome_iff_exists.mp h4
  refine ⟨{ st with
      groupTags := fupd st.groupTags k none
      groupValidTags := fupd st.groupValidTags k none
      groupHandlesTag := fupd st.groupHandlesTag k none
      groupServerHandles := fupd st.groupServerHandles k none
      groupHooks :=
        if (st.groupHooks k).isSome then fupd st.groupHooks k (some false) else st.groupHooks
      remoteGroups := fupd st.remoteGroups k false }, ?_, ?_, ?_, ?_, ?_, ?_, ?_, ?_, ?_, rfl, rfl⟩
  · unfold removeSubGroup
    rw [pydelF_ok st.groupTags k v1 hv1, pydelF_ok st.groupValidTags k v2 hv2,
      pydelF_ok st.groupHandlesTag k v3 hv3, pydelF_ok st.groupServerHandles k v4 hv4]
  · simp [fupd]
  · simp [fupd]
  · simp [fupd]
  · simp [fupd]
  · simp [fupd]
  · intro b hb
    simp only [hb, Option.isSome_some, if_pos]
    simp [fupd]
  · intro h0
    simp only [h0, Option.isSome_none, Bool.false_eq_true, if_false]
  · intro k' hk'
    refine ⟨by simp [fupd, hk'], by simp [fupd, hk'], by simp [fupd, hk'],
      by simp [fupd, hk'], ?_, by simp [fupd, hk']⟩
    by_cases hh : (st.groupHooks k).isSome
    · simp only [hh, if_pos]
      simp [fupd, hk']
    · simp only [hh, Bool.false_eq_true, if_false]

/-- Tearing down a list of distinct sub-group indices whose entries are all
present succeeds, clears every listed sub-group's entries, marks their remote
groups removed and closes their live hooks, while leaving every other key and
the group map and transaction counter unchanged. -/
theorem removeSubGroupsLoop_spec (name : String) :
    ∀ (is : List Nat) (st : OPCState), is.Nodup →
      (∀ i ∈ is, (st.groupTags (some (name, i))).isSome ∧
        (st.groupValidTags (some (name, i))).isSome ∧
        (st.groupHandlesTag (some (name, i))).isSome ∧
        (st.groupServerHandles (some (name, i))).isSome) →
      ∃ st', removeSubGroupsLoop name st is = Except.ok st' ∧
        (∀ i ∈ is, st'.groupTags (some (name, i)) = none ∧
          st'.groupValidTags (some (name, i)) = none ∧
          st'.groupHandlesTag (some (name, i)) = none ∧
          st'.groupServerHandles (some (name, i)) = none ∧
          st'.remoteGroups (some (name, i)) = false ∧
          ∀ b, st.groupHooks (some (name, i)) = some b →
            st'.groupHooks (some (name, i)) = some false) ∧
        (∀ k, (∀ i ∈ is, k ≠ some (name, i)) →
          st'.groupTags k = st.groupTags k ∧ st'.groupValidTags k = st.groupValidTags k ∧
          st'.groupHandlesTag k = st.groupHandlesTag k ∧
          st'.groupServerHandles k = st.groupServerHandles k ∧
          st'.groupHooks k = st.groupHooks k ∧ st'.remoteGroups k = st.remoteGroups k) ∧
        st'.groups = st.groups ∧ st'.txId = st.txId := by
  intro is
  induction is with
  | nil =>
    intro st _ _
    refine ⟨st, rfl, ?_, ?_, rfl, rfl⟩
    · intro i hi; exact absurd hi (List.not_mem_nil i)
    · intro k _; exact ⟨rfl, rfl, rfl, rfl, rfl, rfl⟩
  | cons i0 is ih =>
    intro st hnd hpres
    have hp0 := hpres i0 (List.mem_cons_self i0 is)
    obtain ⟨st1, heq1, hcl1, hcl2, hcl3, hcl4, hrm1, hhk1, _, hfr1, hgr1, htx1⟩ :=
      removeSubGroup_spec st (some (name, i0)) hp0.1 hp0.2.1 hp0.2.2.1 hp0.2.2.2
    have hi0 : i0 ∉ is := (List.nodup_cons.mp hnd).1
    have hkeydiff : ∀ i ∈ is, (some (name, i) : SubKey) ≠ some (name, i0) := by
      intro i hi hk
      simp only [Option.some.injEq, Prod.mk.injEq] at hk
      exact hi0 (hk.2 ▸ hi)
    have hpres1 : ∀ i ∈ is, (st1.groupTags (some (name, i))).isSome ∧
        (st1.groupValidTags (some (name, i))).isSome ∧
        (st1.groupHandlesTag (some (name, i))).isSome ∧
        (st1.groupServerHandles (some (name, i))).isSome := by
      intro i hi
      obtain ⟨e1, e2, e3, e4, _, _⟩ := hfr1 (some (name, i)) (hkeydiff i hi)
      obtain ⟨p1, p2, p3, p4⟩ := hpres i (List.mem_cons_of_mem i0 hi)
      exact ⟨e1 ▸ p1, e2 ▸ p2, e3 ▸ p3, e4 ▸ p4⟩
    obtain ⟨st', heq', hclean', hfr', hgr', htx'⟩ :=
      ih st1 (List.nodup_cons.mp hnd).2 hpres1
    have hloopeq : removeSubGroupsLoop name st (i0 :: is) = Except.ok st' := by
      rw [removeSubGroupsLoop, heq1]
      exact heq'
    have hi0diff : ∀ i ∈ is, (some (name, i0) : SubKey) ≠ some (name, i) := by
      intro i hi hk
      exact hkeydiff i hi hk.symm
    refine ⟨st', hloopeq, ?_, ?_, hgr'.trans hgr1, htx'.trans htx1⟩
    · intro i hi
      rcases List.mem_cons.mp hi with rfl | hi'
      · obtain ⟨f1, f2, f3, f4, f5, f6⟩ := hfr' (some (name, i)) (hi0diff)
        refine ⟨f1.trans hcl1, f2.trans hcl2, f3.trans hcl3, f4.trans hcl4, f6.trans hrm1, ?_⟩
        intro b hb
        exact f5.trans (hhk1 b hb)
      · obtain ⟨c1, c2, c3, c4, c5, chk⟩ := hclean' i hi'
        refine ⟨c1, c2, c3, c4, c5, ?_⟩
        intro b hb
        obtain ⟨_, _, _, _, e5, _⟩ := hfr1 (some (name, i)) (hkeydiff i hi')
        exact chk b (e5.trans hb)
    · intro k hk
      have hk1 : k ≠ some (name, i0) := hk i0 (List.mem_cons_self i0 is)
      have hkrest : ∀ i ∈ is, k ≠ some (name, i) := fun i hi => hk i (List.mem_cons_of_mem i0 hi)
      obtain ⟨f1, f2, f3, f4, f5, f6⟩ := hfr' k hkrest
      obtain ⟨e1, e2, e3, e4, e5, e6⟩ := hfr1 k hk1
      exact ⟨f1.trans e1, f2.trans e2, f3.trans e3, f4.trans e4, f5.trans e5, f6.trans e6⟩

end OpenOPC

namespace OpenOPC

/-- C8: for a name present in the session's group map with recorded sub-group
count `count` (whose sub-group entries are present, as every successful read
of the group ensures), `Client.remove` (lines 728-767) succeeds and, for every
sub-group index `0 .. count-1`: the tag-cache, valid-tag-cache,
client-handle→tag and tag→server-handle entries are all deleted, the remote
group is removed, and a live event hook is closed; the group's top-level
entry is dropped; every other key in every map, and the transaction counter,
are unchanged.  For a name not present in the group map, `remove` is a
no-op. -/
theorem c8_remove_group (st : OPCState) (name : String) :
    (st.groups name = none → removeGroup st name = Except.ok st) ∧
    ∀ count, st.groups name = some count →
      (∀ i, i < count → (st.groupTags (some (name, i))).isSome ∧
        (st.groupValidTags (some (name, i))).isSome ∧
        (st.groupHandlesTag (some (name, i))).isSome ∧
        (st.groupServerHandles (some (name, i))).isSome) →
      ∃ st', removeGroup st name = Except.ok st' ∧
        st'.groups name = none ∧
        (∀ g, g ≠ name → st'.groups g = st.groups g) ∧
        (∀ i, i < count → st'.groupTags (some (name, i)) = none ∧
          st'.groupValidTags (some (name, i)) = none ∧
          st'.groupHandlesTag (some (name, i)) = none ∧
          st'.groupServerHandles (some (name, i)) = none ∧
          st'.remoteGroups (some (name, i)) = false ∧
          ∀ b, st.groupHooks (some (name, i)) = some b →
            st'.groupHooks (some (name, i)) = some false) ∧
        (∀ k, (∀ i, i < count → k ≠ some (name, i)) →
          st'.groupTags k = st.groupTags k ∧ st'.groupValidTags k = st.groupValidTags k ∧
          st'.groupHandlesTag k = st.groupHandlesTag k ∧
          st'.groupServerHandles k = st.groupServerHandles k ∧
          st'.groupHooks k = st.groupHooks k ∧ st'.remoteGroups k = st.remoteGroups k) ∧
        st'.txId = st.txId := by
  constructor
  · intro h0
    unfold removeGroup
    rw [h0]
  · intro count hcount hpres
    obtain ⟨st1, hloop, hclean, hframe, hgroups, htx⟩ :=
      removeSubGroupsLoop_spec name (List.range count) st (List.nodup_range count)
        (fun i hi => hpres i (List.mem_range.mp hi))
    refine ⟨{ st1 with groups := fun g => if g = name then none else st1.groups g },
      ?_, ?_, ?_, ?_, ?_, htx⟩
    · simp only [removeGroup, hcount, hloop]
    · simp
    · intro g hg
      simp only [if_neg hg]
      exact congrFun hgroups g
    · intro i hi
      exact hclean i (List.mem_range.mpr hi)
    · intro k hk
      exact hframe k (fun i hi => hk i (List.mem_range.mp hi))

/-- Witness for C8 at the spec's removal scenario (`["T1","T2","T3"]`,
`size=2`, sub-groups `G.0 = [T1, T2]` and `G.1 = [T3]`): removing `G`
removes both sub-groups and all their handle entries, closes the hook, and
drops the top-level entry; removing from a session without the group is a
no-op. -/
theorem c8_remove_group_witness :
    (stateOfE (removeGroup removeDemoState "G") removeDemoState).groups "G" = none ∧
    (stateOfE (removeGroup removeDemoState "G") removeDemoState).groupHandlesTag
      (some ("G", 0)) = none ∧
    (stateOfE (removeGroup removeDemoState "G") removeDemoState).groupHandlesTag
      (some ("G", 1)) = none ∧
    (stateOfE (removeGroup removeDemoState "G") removeDemoState).groupServerHandles
      (some ("G", 1)) = none ∧
    (stateOfE (removeGroup removeDemoState "G") removeDemoState).groupHooks
      (some ("G", 0)) = some false ∧
    removeGroup emptyState "G" = Except.ok emptyState := by
  have hc := c8_remove_group removeDemoState "G"
  have hpres : ∀ i, i < 2 → (removeDemoState.groupTags (some ("G", i))).isSome ∧
      (removeDemoState.groupValidTags (some ("G", i))).isSome ∧
      (removeDemoState.groupHandlesTag (some ("G", i))).isSome ∧
      (removeDemoState.groupServerHandles (some ("G", i))).isSome := by
    intro i hi
    interval_cases i <;> exact ⟨rfl, rfl, rfl, rfl⟩
  obtain ⟨st', heq, hname, _, hclean, _, _⟩ := hc.2 2 rfl hpres
  have hst' : stateOfE (removeGroup removeDemoState "G") removeDemoState = st' := by
    unfold stateOfE
    rw [heq]
  rw [hst']
  exact ⟨hname, (hclean 0 (by omega)).2.2.1, (hclean 1 (by omega)).2.2.1,
    (hclean 1 (by omega)).2.2.2.1,
    (hclean 0 (by omega)).2.2.2.2.2 true rfl,
    (c8_remove_group emptyState "G").1 rfl⟩

end OpenOPC

namespace OpenOPC

/-- A successful `add_items` always leaves the sub-group's handle dict and
server-handle dict present (it creates them when missing), and touches no
other session field: hooks, remote groups, tag caches, group map and the
transaction counter are unchanged. -/
theorem addItems_state (st : OPCState) (sub : SubKey) (tags : List String)
    (vr : Option (List Int)) (ar : Option (List Nat × List Int)) (ie : Bool)
    (es : Int → String) (st' : OPCState) (vt : List String) (sh : List Nat)
    (h : addItems st sub tags vr ar ie es = Except.ok (st', vt, sh)) :
    (st'.groupHandlesTag sub).isSome ∧ (st'.groupServerHandles sub).isSome ∧
    st'.groupHooks = st.groupHooks ∧ st'.remoteGroups = st.remoteGroups ∧
    st'.groupTags = st.groupTags ∧ st'.groupValidTags = st.groupValidTags ∧
    st'.groups = st.groups ∧ st'.txId = st.txId := by
  unfold addItems at h
  split at h
  · exact absurd h (by simp)
  · split at h
    · exact absurd h (by simp)
    · simp only [Except.ok.injEq, Prod.mk.injEq] at h
      obtain ⟨hst, _, _⟩ := h
      subst hst
      exact ⟨by simp [fupd], by simp [fupd], rfl, rfl, rfl, rfl, rfl, rfl⟩

/-- C9 counterexample: the claim states that after an anonymous read no
entries for the anonymous sub-group remain in the session's
client-handle→tag map (nor in the other three caches).  On the code this is
false: the anonymous cleanup (lines 487-498) only closes the event hook and
removes the remote group; `add_items` stored the handle under the `None` key
(line 215) and nothing ever deletes it.  A concrete successful anonymous
async read of `["T1"]` leaves the session's client-handle→tag dict for the
anonymous sub-group holding `{0: "T1"}`. -/
theorem c9_anon_cleanup_counterexample :
    (stateOfR (anonReadState emptyState ["T1"] (some [0]) (some ([7], [0]))
        (fun _ => "") (fun _ => "Good") 100 0
        [(10, some ⟨1, [0], [42], [0], ["t"]⟩)]) emptyState).groupHandlesTag none
      = some [(0, "T1")] ∧
    (anonReadState emptyState ["T1"] (some [0]) (some ([7], [0]))
        (fun _ => "") (fun _ => "Good") 100 0
        [(10, some ⟨1, [0], [42], [0], ["t"]⟩)]).isOk = true ∧
    some [((0 : Nat), "T1")] ≠ (none : Option (List (Nat × String))) := by
  refine ⟨rfl, rfl, ?_⟩
  intro hcontra
  exact Option.noConfusion hcontra

/-- C9 amended: after a completed anonymous asynchronous read the event hook
is closed (its registry entry remains, marked closed) and the remote
transient group is removed, but the session's tag cache, valid-tag cache,
client-handle→tag map and tag→server-handle map all retain their entries for
the anonymous sub-group key — the transient sub-group's session state is not
destroyed, and it is reused (handles continue from the previous maximum) by
the next anonymous read. -/
theorem c9_anon_cleanup_amended (st : OPCState) (tags : List String)
    (vr : Option (List Int)) (ar : Option (List Nat × List Int)) (es qs : Int → String)
    (timeout start : Nat) (steps : List PumpStep) (st' : OPCState)
    (recs : List (String × Option Int × String × Option String))
    (h : anonReadState st tags vr ar es qs timeout start steps = Except.ok (st', recs)) :
    st'.groupHooks none = some false ∧
    st'.remoteGroups none = false ∧
    st'.groupTags none = some tags ∧
    (st'.groupValidTags none).isSome ∧
    (st'.groupHandlesTag none).isSome ∧
    (st'.groupServerHandles none).isSome := by
  unfold anonReadState at h
  split at h
  · exact absurd h (by simp)
  · next st3 validTags _sh heq =>
    have ha := addItems_state _ none tags vr ar false es st3 validTags _sh heq
    obtain ⟨hA, hB, hHooks, hRemote, _, _, _, _⟩ := ha
    have hHooksNone : st3.groupHooks none = some true := by
      rw [hHooks]
      simp [fupd]
    split at h
    · split at h
      · exact absurd h (by simp)
      · simp only [Except.ok.injEq, Prod.mk.injEq] at h
        obtain ⟨hst, _⟩ := h
        subst hst
        refine ⟨?_, ?_, ?_, ?_, ?_, ?_⟩
        · simp [anonCleanup, fupd, hHooksNone]
        · simp [anonCleanup, fupd]
        · simp [anonCleanup, fupd]
        · simp [anonCleanup, fupd]
        · simpa [anonCleanup, fupd] using hA
        · simpa [anonCleanup, fupd] using hB
    · split at h
      · exact absurd h (by simp)
      · exact absurd h (by simp)
      · split at h
        · exact absurd h (by simp)
        · split at h
          · exact absurd h (by simp)
          · simp only [Except.ok.injEq, Prod.mk.injEq] at h
            obtain ⟨hst, _⟩ := h
            subst hst
            refine ⟨?_, ?_, ?_, ?_, ?_, ?_⟩
            · simp [anonCleanup, fupd, hHooksNone]
            · simp [anonCleanup, fupd]
            · simp [anonCleanup, fupd]
            · simp [anonCleanup, fupd]
            · simpa [anonCleanup, fupd] using hA
            · simpa [anonCleanup, fupd] using hB

/-- Witness for C9 amended: a concrete successful anonymous read closes the
hook, removes the remote group, and retains the anonymous sub-group's tag
cache entry. -/
theorem c9_anon_cleanup_amended_witness :
    (stateOfR (anonReadState emptyState ["T2"] (some [0]) (some ([9], [0]))
        (fun _ => "") (fun _ => "Good") 100 0
        [(10, some ⟨1, [0], [7], [0], ["u"]⟩)]) emptyState).groupHooks none = some false ∧
    (stateOfR (anonReadState emptyState ["T2"] (some [0]) (some ([9], [0]))
        (fun _ => "") (fun _ => "Good") 100 0
        [(10, some ⟨1, [0], [7], [0], ["u"]⟩)]) emptyState).remoteGroups none = false ∧
    (stateOfR (anonReadState emptyState ["T2"] (some [0]) (some ([9], [0]))
        (fun _ => "") (fun _ => "Good") 100 0
        [(10, some ⟨1, [0], [7], [0], ["u"]⟩)]) emptyState).groupTags none = some ["T2"] := by
  have h := c9_anon_cleanup_amended emptyState ["T2"] (some [0]) (some ([9], [0]))
    (fun _ => "") (fun _ => "Good") 100 0 [(10, some ⟨1, [0], [7], [0], ["u"]⟩)]
    (stateOfR (anonReadState emptyState ["T2"] (some [0]) (some ([9], [0]))
      (fun _ => "") (fun _ => "Good") 100 0 [(10, some ⟨1, [0], [7], [0], ["u"]⟩)]) emptyState)
    (recsOfR (anonReadState emptyState ["T2"] (some [0]) (some ([9], [0]))
      (fun _ => "") (fun _ => "Good") 100 0 [(10, some ⟨1, [0], [7], [0], ["u"]⟩)]))
    rfl
  exact ⟨h.1, h.2.1, h.2.2.1⟩

end OpenOPC
